import Mathlib

/-!
Shallow embedding of the core of `shift-calendar-generator`:
the `Event`/`Calendar` data model of `src/shift_calendar_generator.py`
(namespace `SCG`) and of the variant `src/shifts_calendar.py`
(namespace `SC`), with their serialization (`to_str`), file export
(`to_file`), and the collection operations used by the GUI handlers
(`add_event`, `delete_last_event`, `get_delete_func`).

Python `datetime` values are naive timestamps; they compare
lexicographically on (year, month, day, hour, minute, second) and are
embedded as a six-component structure of naturals.  `uuid4()` values only
ever appear via `str(...)` interpolation, so `uid` is embedded as a
`String`.  `strftime('%Y%m%dT%H%M%S')` is embedded as zero-padded decimal
rendering of the six components.
-/

/-- A naive Python `datetime.datetime`: no timezone, second precision
(the GUI only ever constructs whole-minute values, but the model keeps
the full field list the format string prints). -/
structure DateTime where
  year : Nat
  month : Nat
  day : Nat
  hour : Nat
  minute : Nat
  second : Nat
deriving DecidableEq

/-- Python `datetime.__lt__`: lexicographic comparison of the components. -/
def DateTime.lt (a b : DateTime) : Bool :=
  decide (a.year < b.year ∨ (a.year = b.year ∧ (a.month < b.month ∨ (a.month = b.month ∧
    (a.day < b.day ∨ (a.day = b.day ∧ (a.hour < b.hour ∨ (a.hour = b.hour ∧
    (a.minute < b.minute ∨ (a.minute = b.minute ∧ a.second < b.second))))))))))

theorem DateTime.lt_iff (a b : DateTime) :
    DateTime.lt a b = true ↔
      (a.year < b.year ∨ (a.year = b.year ∧ (a.month < b.month ∨ (a.month = b.month ∧
      (a.day < b.day ∨ (a.day = b.day ∧ (a.hour < b.hour ∨ (a.hour = b.hour ∧
      (a.minute < b.minute ∨ (a.minute = b.minute ∧ a.second < b.second)))))))))) := by
  simp [DateTime.lt]

theorem DateTime.lt_asymm {a b : DateTime} (h : DateTime.lt a b = true) :
    DateTime.lt b a = false := by
  rw [DateTime.lt_iff] at h
  rw [← Bool.not_eq_true, DateTime.lt_iff]
  omega

theorem DateTime.lt_trans {a b c : DateTime} (h1 : DateTime.lt a b = true)
    (h2 : DateTime.lt b c = true) : DateTime.lt a c = true := by
  rw [DateTime.lt_iff] at h1 h2 ⊢
  omega

theorem DateTime.not_lt_total (a b : DateTime) :
    DateTime.lt a b = false ∨ DateTime.lt b a = false := by
  by_cases h : DateTime.lt a b = true
  · exact Or.inr (DateTime.lt_asymm h)
  · exact Or.inl (Bool.not_eq_true _ |>.mp h)

theorem DateTime.eq_of_not_lt {a b : DateTime} (h1 : DateTime.lt a b = false)
    (h2 : DateTime.lt b a = false) : a = b := by
  rw [← Bool.not_eq_true, DateTime.lt_iff] at h1 h2
  cases a; cases b
  dsimp only at h1 h2
  simp only [DateTime.mk.injEq]
  omega

theorem DateTime.lt_irrefl (a : DateTime) : DateTime.lt a a = false := by
  rw [← Bool.not_eq_true, DateTime.lt_iff]
  omega

/-- Left-pad the decimal rendering of `n` with zeros to width `w`; this is
what each zero-padded `strftime` directive (`%Y`, `%m`, `%d`, `%H`, `%M`,
`%S`) does to its component. -/
def padZero (w : Nat) (n : Nat) : String :=
  let s := toString n
  String.mk (List.replicate (w - s.length) '0') ++ s

/-- Python `dt.strftime('%Y%m%dT%H%M%S')` (the `DT_FORMAT` of both
variants): zero-padded, 24-hour, no timezone suffix. -/
def DateTime.strftimeDT (d : DateTime) : String :=
  padZero 4 d.year ++ padZero 2 d.month ++ padZero 2 d.day ++ "T" ++
    padZero 2 d.hour ++ padZero 2 d.minute ++ padZero 2 d.second

/-- The `Event` dataclass of `src/shift_calendar_generator.py`, after
`__post_init__` has run (so `dtstamp` and `uid` are populated). -/
structure SCG.Event where
  organiser : String
  dtstart : DateTime
  dtend : DateTime
  summary : String
  dtstamp : DateTime
  uid : String
deriving DecidableEq

/-- An ambient source for the two construction-time defaults: what
`datetime.now()` and `uuid4()` would return if consulted. -/
structure World where
  now : DateTime
  freshUid : String
deriving DecidableEq

/-- The dataclass constructor plus `Event.__post_init__` of
`src/shift_calendar_generator.py`: a missing `uid` is drawn from
`uuid4()` and a missing `dtstamp` from `datetime.now()`, exactly once,
at construction. -/
def SCG.Event.post_init (organiser : String) (dtstart dtend : DateTime)
    (summary : String) (dtstamp : Option DateTime) (uid : Option String)
    (w : World) : SCG.Event :=
  { organiser := organiser, dtstart := dtstart, dtend := dtend,
    summary := summary,
    dtstamp := dtstamp.getD w.now,
    uid := uid.getD w.freshUid }

/-- `Event.to_str` of `src/shift_calendar_generator.py`: the VEVENT block,
lines joined by single newlines. -/
def SCG.Event.to_str (e : SCG.Event) : String :=
  String.intercalate "\n"
    ["BEGIN:VEVENT",
     "UID:" ++ e.uid,
     "ORGANIZER:" ++ e.organiser,
     "DTSTAMP:" ++ e.dtstamp.strftimeDT,
     "DTSTART:" ++ e.dtstart.strftimeDT,
     "DTEND:" ++ e.dtend.strftimeDT,
     "SUMMARY:" ++ e.summary,
     "END:VEVENT"]

/-- Rendering viewed as an operation that also receives the ambient world:
`to_str` reads only the fields of `self`, so the world is returned
untouched and never consulted. -/
def SCG.Event.render (e : SCG.Event) (w : World) : String × World :=
  (e.to_str, w)

/-- `Event.__lt__` of `src/shift_calendar_generator.py`:
`self.dtstart < other.dtstart`. -/
def SCG.Event.lt (a b : SCG.Event) : Bool :=
  DateTime.lt a.dtstart b.dtstart

/-- `Event.__eq__` of `src/shift_calendar_generator.py`:
`self.dtstart == other.dtstart`. -/
def SCG.Event.eq (a b : SCG.Event) : Bool :=
  decide (a.dtstart = b.dtstart)

/-- Python `sorted(...)` on a list of `SCG.Event`: a stable sort driven by
`Event.__lt__` (CPython's Timsort; any stable sort with respect to the
same strict order produces the same list, so it is embedded as the
stable `List.mergeSort` with `le a b := not (b < a)`). -/
def pySorted (l : List SCG.Event) : List SCG.Event :=
  l.mergeSort (fun a b => !(SCG.Event.lt b a))

/-- The `Calendar` dataclass of `src/shift_calendar_generator.py`, after
`__post_init__` (so `events` is an actual list). -/
structure SCG.Calendar where
  prodid : String
  version : String
  events : List SCG.Event
deriving DecidableEq

/-- `Calendar.to_str` of `src/shift_calendar_generator.py`: header lines,
then each event's block in `sorted(self.events)` order, then the end
marker, joined by single newlines. -/
def SCG.Calendar.to_str (c : SCG.Calendar) : String :=
  String.intercalate "\n"
    (["BEGIN:VCALENDAR",
      "VERSION:" ++ c.version,
      "PRODID:" ++ c.prodid]
     ++ (pySorted c.events).map SCG.Event.to_str
     ++ ["END:VCALENDAR"])

/-- `Calendar.to_str` viewed as an operation that also returns the final
state of `self`: the method body only reads `self.version`,
`self.prodid` and `self.events` (through the non-mutating `sorted`),
assigning to no attribute, so the returned state is the translation of
`self` after the body, field by field. -/
def SCG.Calendar.to_str_run (c : SCG.Calendar) : String × SCG.Calendar :=
  (c.to_str, { prodid := c.prodid, version := c.version, events := c.events })

/-- CPython `PurePath.name` of a path string: the substring after the
last separator. -/
def pathName (p : String) : String :=
  String.mk (((p.data.reverse).takeWhile (fun c => c != '/')).reverse)

/-- CPython `PurePath.parent` part kept by `with_suffix`: everything up to
and including the last separator. -/
def pathDir (p : String) : String :=
  String.mk (((p.data.reverse).dropWhile (fun c => c != '/')).reverse)

/-- CPython suffix computation on a bare name: the substring from the last
dot, provided that dot is neither the first nor the last character;
otherwise the empty string. -/
def nameSuffix (name : String) : String :=
  let r := name.data.reverse
  let k := (r.takeWhile (fun c => c != '.')).length
  if k = r.length then ""
  else if k = 0 then ""
  else if k = r.length - 1 then ""
  else String.mk ((r.take (k + 1)).reverse)

/-- CPython `PurePath.suffix`: the suffix of the final component. -/
def pathSuffix (p : String) : String :=
  nameSuffix (pathName p)

/-- CPython `PurePath.with_suffix(suffix)` for a well-formed non-empty
`suffix` such as `'.ics'`: raises `ValueError` when the path has an empty
name (for example `'.'` or `'/'`), otherwise drops the old suffix, if
any, and attaches the new one. -/
def with_suffix (p : String) (suffix : String) : Except String String :=
  let name := pathName p
  if name = "" then Except.error "ValueError: empty name"
  else
    let old := pathSuffix p
    let newName :=
      if old = "" then name ++ suffix
      else String.mk (name.data.take (name.length - old.length)) ++ suffix
    Except.ok (pathDir p ++ newName)

/-- `Calendar.to_file` of `src/shift_calendar_generator.py`: computes
`filename.with_suffix('.ics')` and writes the rendered text there. The
result is the list of (path, content) writes the call performs. -/
def SCG.Calendar.to_file (c : SCG.Calendar) (filename : String) :
    Except String (List (String × String)) :=
  (with_suffix filename ".ics").map (fun save_to => [(save_to, c.to_str)])

/-- `MainWindow.add_event` restricted to its effect on
`self.calendar.events`: `self.calendar.events.append(event)`. -/
def SCG.add_event (c : SCG.Calendar) (e : SCG.Event) : SCG.Calendar :=
  { c with events := c.events ++ [e] }

/-- `MainWindow.delete_last_event` restricted to its effect on
`self.calendar.events`: `if len(self.calendar.events) > 0:
self.calendar.events.pop()`. -/
def SCG.delete_last_event (c : SCG.Calendar) : SCG.Calendar :=
  if c.events.length > 0 then { c with events := c.events.dropLast } else c

/-- Python `list.remove(x)` under the `Event.__eq__` of
`src/shift_calendar_generator.py`: removes the first element comparing
equal to `x`, and raises `ValueError` when none does. -/
def pyListRemove : List SCG.Event → SCG.Event → Except String (List SCG.Event)
  | [], _ => Except.error "ValueError: list.remove(x): x not in list"
  | y :: ys, x =>
    if SCG.Event.eq y x then Except.ok ys
    else (pyListRemove ys x).map (fun r => y :: r)

/-- The closure produced by `MainWindow.get_delete_func(event)` restricted
to its effect on `self.calendar.events`:
`self.calendar.events.remove(event)`. -/
def SCG.removeMatching (c : SCG.Calendar) (e : SCG.Event) :
    Except String SCG.Calendar :=
  (pyListRemove c.events e).map (fun l => { c with events := l })

/-- The `Event` dataclass of the variant `src/shifts_calendar.py`, after
`__post_init__`.  Its fields are the same as in
`src/shift_calendar_generator.py`, but it defines no `__lt__` or
`__eq__` of its own. -/
structure SC.Event where
  organiser : String
  dtstart : DateTime
  dtend : DateTime
  summary : String
  dtstamp : DateTime
  uid : String
deriving DecidableEq

/-- The `__eq__` that `@dataclass` generates for the `Event` of
`src/shifts_calendar.py` (which overrides none): the tuples of all six
fields are compared. -/
def SC.Event.eq (a b : SC.Event) : Bool :=
  decide (a.organiser = b.organiser ∧ a.dtstart = b.dtstart ∧ a.dtend = b.dtend ∧
    a.summary = b.summary ∧ a.dtstamp = b.dtstamp ∧ a.uid = b.uid)

/-- `Event.to_str` of `src/shifts_calendar.py`: textually the same body as
in `src/shift_calendar_generator.py`. -/
def SC.Event.to_str (e : SC.Event) : String :=
  String.intercalate "\n"
    ["BEGIN:VEVENT",
     "UID:" ++ e.uid,
     "ORGANIZER:" ++ e.organiser,
     "DTSTAMP:" ++ e.dtstamp.strftimeDT,
     "DTSTART:" ++ e.dtstart.strftimeDT,
     "DTEND:" ++ e.dtend.strftimeDT,
     "SUMMARY:" ++ e.summary,
     "END:VEVENT"]

/-- The `Calendar` dataclass of `src/shifts_calendar.py`, after
`__post_init__`. -/
structure SC.Calendar where
  prodid : String
  version : String
  events : List SC.Event
deriving DecidableEq

/-- `Calendar.to_str` of `src/shifts_calendar.py`: header lines, then each
event's block — iterating `self.events` directly, with NO call to
`sorted` — then the end marker. -/
def SC.Calendar.to_str (c : SC.Calendar) : String :=
  String.intercalate "\n"
    (["BEGIN:VCALENDAR",
      "VERSION:" ++ c.version,
      "PRODID:" ++ c.prodid]
     ++ c.events.map SC.Event.to_str
     ++ ["END:VCALENDAR"])

/-- `Calendar.to_file` of `src/shifts_calendar.py`: same body as in
`src/shift_calendar_generator.py`. -/
def SC.Calendar.to_file (c : SC.Calendar) (filename : String) :
    Except String (List (String × String)) :=
  (with_suffix filename ".ics").map (fun save_to => [(save_to, c.to_str)])

/-- A heap of Python list objects holding events, for reasoning about the
aliasing behaviour of `Calendar.__post_init__`: each cell is one list
object, addressed by its index. -/
abbrev EventHeap : Type := List (List SCG.Event)

/-- Python `list()` inside `__post_init__`: allocates a fresh empty list
object and returns its address. -/
def EventHeap.alloc (h : EventHeap) : EventHeap × Nat :=
  (List.append h [[]], List.length h)

/-- Reads the list object at address `r`, when allocated. -/
def EventHeap.read (h : EventHeap) (r : Nat) : Option (List SCG.Event) :=
  List.get? h r

/-- Python `lst.append(e)` on the list object at address `r`: in-place
mutation of that one cell. -/
def EventHeap.appendAt (h : EventHeap) (r : Nat) (e : SCG.Event) : EventHeap :=
  List.set h r (List.append (List.getD h r []) [e])

/-- A `Calendar` as the heap model sees it: the `events` attribute is a
reference to a list object, exactly as in Python. -/
structure SCG.CalendarRef where
  prodid : String
  version : String
  eventsRef : Nat

/-- The dataclass constructor plus `Calendar.__post_init__` of
`src/shift_calendar_generator.py`, heap-explicitly: when the caller
passes no `events` argument the field defaults to `None` and
`__post_init__` replaces it with a freshly allocated empty list; a
caller-supplied list object is stored as-is. -/
def SCG.Calendar.post_init (prodid : String) (version : String)
    (events : Option Nat) (h : EventHeap) : SCG.CalendarRef × EventHeap :=
  match events with
  | some r => (⟨prodid, version, r⟩, h)
  | none =>
    let (h2, r) := h.alloc
    (⟨prodid, version, r⟩, h2)

/-- The non-strict comparison `sorted` effectively sorts by:
`a` may precede `b` exactly when `b` is not strictly earlier. -/
def evLE (a b : SCG.Event) : Bool := !(SCG.Event.lt b a)

theorem DateTime.lt_false_trans {a b c : DateTime} (h1 : DateTime.lt b a = false)
    (h2 : DateTime.lt c b = false) : DateTime.lt c a = false := by
  rw [← Bool.not_eq_true, DateTime.lt_iff] at h1 h2 ⊢
  omega

theorem evLE_trans (a b c : SCG.Event) (h1 : evLE a b) (h2 : evLE b c) : evLE a c := by
  simp only [evLE, SCG.Event.lt, Bool.not_eq_true', Bool.not_eq_eq_eq_not] at h1 h2 ⊢
  exact DateTime.lt_false_trans h1 h2

theorem evLE_total (a b : SCG.Event) : evLE a b || evLE b a := by
  simp only [evLE, SCG.Event.lt, Bool.or_eq_true, Bool.not_eq_true']
  rcases DateTime.not_lt_total b.dtstart a.dtstart with h | h
  · exact Or.inl h
  · exact Or.inr h

theorem pySorted_eq_mergeSort (l : List SCG.Event) :
    pySorted l = l.mergeSort evLE := rfl

theorem pySorted_perm (l : List SCG.Event) : (pySorted l).Perm l :=
  List.mergeSort_perm l _

/-- The rendered order of `shift_calendar_generator.py` is non-decreasing
in `dtstart`: no event is listed strictly after one with a later start. -/
theorem pySorted_sorted (l : List SCG.Event) :
    (pySorted l).Pairwise (fun a b => SCG.Event.lt b a = false) := by
  have h := List.sorted_mergeSort
    (fun a b c => evLE_trans a b c) (fun a b => evLE_total a b) l
  rw [pySorted_eq_mergeSort]
  exact h.imp (fun hab => by simpa [evLE] using hab)

/-- Stability of the render-time sort: events sharing any fixed `dtstart`
value keep their original relative (append) order. -/
theorem pySorted_stable (l : List SCG.Event) (t : DateTime) :
    (pySorted l).filter (fun e => decide (e.dtstart = t)) =
      l.filter (fun e => decide (e.dtstart = t)) := by
  set p : SCG.Event → Bool := fun e => decide (e.dtstart = t) with hp
  have hpw : (l.filter p).Pairwise (fun a b => evLE a b) := by
    apply List.pairwise_of_forall_mem_list
    intro a ha b hb
    have ha' : a.dtstart = t := by
      have := (List.mem_filter.mp ha).2
      simpa [hp] using this
    have hb' : b.dtstart = t := by
      have := (List.mem_filter.mp hb).2
      simpa [hp] using this
    simp [evLE, SCG.Event.lt, ha', hb', DateTime.lt_irrefl]
  have hsub : List.Sublist (l.filter p) (l.mergeSort evLE) :=
    List.sublist_mergeSort (fun a b c => evLE_trans a b c)
      (fun a b => evLE_total a b) hpw (List.filter_sublist l)
  have hsub2 : List.Sublist ((l.filter p).filter p) ((l.mergeSort evLE).filter p) :=
    hsub.filter p
  rw [List.filter_filter] at hsub2
  have hself : (fun a => p a && p a) = p := by
    funext a; exact Bool.and_self (p a)
  rw [hself] at hsub2
  have hperm : ((pySorted l).filter p).Perm (l.filter p) :=
    (pySorted_perm l).filter p
  rw [pySorted_eq_mergeSort]
  exact ((hsub2.eq_of_length hperm.length_eq.symm)).symm

theorem takeWhile_dropWhile_nil (p : Char → Bool) (l : List Char) :
    (l.dropWhile p).takeWhile p = [] := by
  cases h : l.dropWhile p with
  | nil => rfl
  | cons a t =>
    have hpa : p a = false := by
      have hh := List.head?_dropWhile_not p l
      rw [h] at hh
      simpa using hh
    simp [List.takeWhile_cons, hpa]

theorem pathName_no_sep (p : String) : ∀ c ∈ (pathName p).data, (c != '/') = true := by
  intro c hc
  have : c ∈ (p.data.reverse).takeWhile (fun c => c != '/') := by
    simpa [pathName] using hc
  exact List.mem_takeWhile_imp (p := fun c => c != '/') this

theorem pathDir_append_pathName (p : String) : pathDir p ++ pathName p = p := by
  apply String.ext
  simp only [String.data_append, pathDir, pathName]
  rw [← List.reverse_append, List.takeWhile_append_dropWhile, List.reverse_reverse]

theorem pathName_dir_append (p n : String)
    (hn : ∀ c ∈ n.data, (c != '/') = true) :
    pathName (pathDir p ++ n) = n := by
  apply String.ext
  simp only [pathName, pathDir, String.data_append]
  rw [List.reverse_append, List.reverse_reverse]
  rw [List.takeWhile_append_of_pos (fun a ha => hn a (List.mem_reverse.mp ha))]
  rw [takeWhile_dropWhile_nil]
  simp

theorem data_append_ics (s : String) :
    (s ++ ".ics").data = s.data ++ ('.' :: 'i' :: 'c' :: 's' :: []) := by
  rw [String.data_append]

theorem nameSuffix_append_ics (s : String) (hs : s ≠ "") :
    nameSuffix (s ++ ".ics") = ".ics" := by
  have hd : s.data ≠ [] := by
    intro h
    exact hs (String.ext (h.trans rfl))
  have hlen : 1 ≤ s.data.length := by
    cases h : s.data with
    | nil => exact absurd h hd
    | cons a t => simp
  unfold nameSuffix
  rw [data_append_ics, List.reverse_append]
  have hrev : ('.' :: 'i' :: 'c' :: 's' :: []).reverse =
      's' :: 'c' :: 'i' :: '.' :: [] := rfl
  rw [hrev]
  have htw : ('s' :: 'c' :: 'i' :: '.' :: s.data.reverse).takeWhile
      (fun c => c != '.') = 's' :: 'c' :: 'i' :: [] := by
    simp [List.takeWhile_cons]
  simp only [List.cons_append, List.nil_append] at htw ⊢
  rw [htw]
  have hk : ('s' :: 'c' :: 'i' :: []).length = 3 := rfl
  have hl : ('s' :: 'c' :: 'i' :: '.' :: s.data.reverse).length
      = s.data.length + 4 := by
    simp
  rw [hk, hl]
  rw [if_neg (by omega), if_neg (by omega), if_neg (by omega)]
  have ht : ('s' :: 'c' :: 'i' :: '.' :: s.data.reverse).take (3 + 1)
      = 's' :: 'c' :: 'i' :: '.' :: [] := rfl
  rw [ht]
  rfl

theorem string_length_data (s : String) : s.length = s.data.length := rfl

theorem nameSuffix_length_lt (name : String) (h : nameSuffix name ≠ "") :
    (nameSuffix name).length + 1 ≤ name.length ∧ 1 ≤ (nameSuffix name).length := by
  simp only [nameSuffix] at h ⊢
  have hkle : ((name.data.reverse).takeWhile (fun c => c != '.')).length ≤
      name.data.reverse.length := (List.takeWhile_sublist _).length_le
  split_ifs at h ⊢ with h1 h2 h3
  · exact absurd rfl h
  · exact absurd rfl h
  · exact absurd rfl h
  · simp only [string_length_data, String.length_mk, List.length_take,
      List.length_reverse] at h1 h3 hkle ⊢
    omega

theorem ics_chars_no_sep : ∀ c ∈ ('.' :: 'i' :: 'c' :: 's' :: []), (c != '/') = true := by
  decide

theorem with_suffix_ics_ok (p t : String) (h : with_suffix p ".ics" = Except.ok t) :
    pathSuffix t = ".ics" ∧
    (pathSuffix p = "" → t = p ++ ".ics") ∧
    (pathSuffix p ≠ "" →
      t = pathDir p ++
        (String.mk ((pathName p).data.take ((pathName p).length - (pathSuffix p).length))
          ++ ".ics")) := by
  unfold with_suffix at h
  by_cases hname : pathName p = ""
  · rw [if_pos hname] at h
    exact absurd h (by simp)
  · rw [if_neg hname] at h
    simp only [Except.ok.injEq] at h
    by_cases hold : pathSuffix p = ""
    · rw [if_pos hold] at h
      subst h
      refine ⟨?_, fun _ => ?_, fun hc => absurd hold hc⟩
      · have hn : ∀ c ∈ (pathName p ++ ".ics").data, (c != '/') = true := by
          intro c hc
          rw [data_append_ics] at hc
          rcases List.mem_append.mp hc with h' | h'
          · exact pathName_no_sep p c h'
          · exact ics_chars_no_sep c h'
        rw [pathSuffix, pathName_dir_append p _ hn]
        exact nameSuffix_append_ics _ hname
      · rw [← String.append_assoc, pathDir_append_pathName]
    · rw [if_neg hold] at h
      subst h
      have hps : pathSuffix p = nameSuffix (pathName p) := rfl
      have hlen := nameSuffix_length_lt (pathName p) (hps ▸ hold)
      have hstem : String.mk ((pathName p).data.take
          ((pathName p).length - (pathSuffix p).length)) ≠ "" := by
        intro hcon
        have h0 : ((pathName p).data.take
            ((pathName p).length - (pathSuffix p).length)).length = 0 := by
          rw [← String.length_mk ((pathName p).data.take _), hcon]
          rfl
        rw [List.length_take, hps] at h0
        simp only [string_length_data] at h0 hlen
        omega
      refine ⟨?_, fun hc => absurd hc hold, fun _ => rfl⟩
      have hn : ∀ c ∈ (String.mk ((pathName p).data.take
          ((pathName p).length - (pathSuffix p).length)) ++ ".ics").data,
          (c != '/') = true := by
        intro c hc
        rw [data_append_ics] at hc
        rcases List.mem_append.mp hc with h' | h'
        · exact pathName_no_sep p c (List.take_subset _ _ h')
        · exact ics_chars_no_sep c h'
      rw [pathSuffix, pathName_dir_append p _ hn]
      exact nameSuffix_append_ics _ hstem

theorem padZero_length {w n : Nat} (hw : 0 < w) (h : n < 10 ^ w) :
    (padZero w n).length = w := by
  have ht : (toString n : String) = Nat.repr n := rfl
  have hr : (Nat.repr n).length ≤ w := Nat.repr_length n w hw h
  unfold padZero
  rw [String.length_append, String.length_mk, List.length_replicate, ht]
  omega

theorem strftimeDT_length (d : DateTime) (h1 : d.year < 10000) (h2 : d.month < 100)
    (h3 : d.day < 100) (h4 : d.hour < 100) (h5 : d.minute < 100)
    (h6 : d.second < 100) : d.strftimeDT.length = 15 := by
  have hy : d.year < 10 ^ 4 := lt_of_lt_of_le h1 (by norm_num)
  have hm : d.month < 10 ^ 2 := lt_of_lt_of_le h2 (by norm_num)
  have hd : d.day < 10 ^ 2 := lt_of_lt_of_le h3 (by norm_num)
  have hh : d.hour < 10 ^ 2 := lt_of_lt_of_le h4 (by norm_num)
  have hmi : d.minute < 10 ^ 2 := lt_of_lt_of_le h5 (by norm_num)
  have hs : d.second < 10 ^ 2 := lt_of_lt_of_le h6 (by norm_num)
  have hT : ("T" : String).length = 1 := rfl
  unfold DateTime.strftimeDT
  simp only [String.length_append]
  rw [padZero_length (by norm_num) hy, padZero_length (by norm_num) hm,
    padZero_length (by norm_num) hd, padZero_length (by norm_num) hh,
    padZero_length (by norm_num) hmi, padZero_length (by norm_num) hs, hT]

/-- C3. Both variants' `Event.to_str` produce exactly the lines
BEGIN:VEVENT, UID:, ORGANIZER:, DTSTAMP:, DTSTART:, DTEND:, SUMMARY:,
END:VEVENT in that order, joined by single newlines, organiser and
summary embedded verbatim after the label and colon, and every timestamp
rendered by the zero-padded 24-hour format `YYYYMMDDTHHMMSS` (15
characters, no timezone suffix) whenever the components are in range. -/
theorem event_block_exact :
    (∀ e : SCG.Event, e.to_str =
      "BEGIN:VEVENT" ++ "\n" ++ "UID:" ++ e.uid ++ "\n" ++
      "ORGANIZER:" ++ e.organiser ++ "\n" ++
      "DTSTAMP:" ++ e.dtstamp.strftimeDT ++ "\n" ++
      "DTSTART:" ++ e.dtstart.strftimeDT ++ "\n" ++
      "DTEND:" ++ e.dtend.strftimeDT ++ "\n" ++
      "SUMMARY:" ++ e.summary ++ "\n" ++ "END:VEVENT") ∧
    (∀ e : SC.Event, e.to_str =
      "BEGIN:VEVENT" ++ "\n" ++ "UID:" ++ e.uid ++ "\n" ++
      "ORGANIZER:" ++ e.organiser ++ "\n" ++
      "DTSTAMP:" ++ e.dtstamp.strftimeDT ++ "\n" ++
      "DTSTART:" ++ e.dtstart.strftimeDT ++ "\n" ++
      "DTEND:" ++ e.dtend.strftimeDT ++ "\n" ++
      "SUMMARY:" ++ e.summary ++ "\n" ++ "END:VEVENT") ∧
    (∀ d : DateTime, d.year < 10000 → d.month < 100 → d.day < 100 →
      d.hour < 100 → d.minute < 100 → d.second < 100 →
      d.strftimeDT = padZero 4 d.year ++ padZero 2 d.month ++ padZero 2 d.day
        ++ "T" ++ padZero 2 d.hour ++ padZero 2 d.minute ++ padZero 2 d.second
      ∧ d.strftimeDT.length = 15) := by
  refine ⟨fun e => ?_, fun e => ?_, fun d h1 h2 h3 h4 h5 h6 =>
    ⟨rfl, strftimeDT_length d h1 h2 h3 h4 h5 h6⟩⟩
  · simp only [SCG.Event.to_str, String.intercalate, String.intercalate.go,
      String.append_assoc]
  · simp only [SC.Event.to_str, String.intercalate, String.intercalate.go,
      String.append_assoc]

/-- Witness for C3 at the example of spec section 8: organiser `Admo`,
dtstart 2025-06-04T00:00:00, dtend 2025-06-05T00:00:00, summary `stuff`. -/
theorem event_block_exact_witness :
    SCG.Event.to_str
        ⟨"Admo", ⟨2025, 6, 4, 0, 0, 0⟩, ⟨2025, 6, 5, 0, 0, 0⟩, "stuff",
         ⟨2025, 6, 1, 12, 30, 5⟩, "uid-1"⟩ =
      "BEGIN:VEVENT\nUID:uid-1\nORGANIZER:Admo\nDTSTAMP:20250601T123005\nDTSTART:20250604T000000\nDTEND:20250605T000000\nSUMMARY:stuff\nEND:VEVENT" ∧
    (DateTime.strftimeDT ⟨2025, 6, 4, 0, 0, 0⟩).length = 15 :=
  ⟨by decide,
   (event_block_exact.2.2 ⟨2025, 6, 4, 0, 0, 0⟩ (by decide) (by decide)
     (by decide) (by decide) (by decide) (by decide)).2⟩

/-- C7. Rendering is deterministic: `to_str` (as the world-passing
`render`) neither consults nor changes the ambient world, so two calls on
the same unmodified Event yield byte-identical output; `uid` and
`dtstamp` are fixed once by `__post_init__` at construction. -/
theorem render_deterministic :
    ∀ (organiser : String) (dtstart dtend : DateTime) (summary : String)
      (w0 w1 w2 : World),
      (SCG.Event.render
          (SCG.Event.post_init organiser dtstart dtend summary none none w0) w1).1 =
        (SCG.Event.render
          (SCG.Event.post_init organiser dtstart dtend summary none none w0) w2).1 ∧
      (SCG.Event.render
          (SCG.Event.post_init organiser dtstart dtend summary none none w0) w1).2 = w1 ∧
      (SCG.Event.post_init organiser dtstart dtend summary none none w0).uid =
        w0.freshUid ∧
      (SCG.Event.post_init organiser dtstart dtend summary none none w0).dtstamp =
        w0.now :=
  fun _ _ _ _ _ _ _ => ⟨rfl, rfl, rfl, rfl⟩

/-- C8. Appending an event and then deleting the last event leaves the
rendered output identical to before the append. -/
theorem append_remove_last_inverse :
    ∀ (c : SCG.Calendar) (e : SCG.Event),
      (SCG.delete_last_event (SCG.add_event c e)).to_str = c.to_str := by
  intro c e
  simp [SCG.add_event, SCG.delete_last_event]

/-- C9. `Calendar.to_str` leaves the calendar unchanged: the state after
the method body (which reads `self` only through the non-mutating
`sorted`) equals the state before, events in original insertion order,
`prodid` and `version` untouched; the output is still the sorted
rendering. -/
theorem to_str_frame :
    ∀ c : SCG.Calendar,
      (SCG.Calendar.to_str_run c).2 = c ∧
      (SCG.Calendar.to_str_run c).2.events = c.events ∧
      (SCG.Calendar.to_str_run c).1 = c.to_str :=
  fun _ => ⟨rfl, rfl, rfl⟩

/-- An event starting 2025-06-04, used by counterexamples. -/
def cexEvA : SC.Event :=
  ⟨"Admo", ⟨2025, 6, 4, 0, 0, 0⟩, ⟨2025, 6, 5, 0, 0, 0⟩, "stuff",
   ⟨2025, 6, 1, 0, 0, 0⟩, "uid-a"⟩

/-- An event starting one day later, 2025-06-05. -/
def cexEvB : SC.Event :=
  ⟨"Admo", ⟨2025, 6, 5, 0, 0, 0⟩, ⟨2025, 6, 6, 0, 0, 0⟩, "late",
   ⟨2025, 6, 1, 0, 0, 0⟩, "uid-b"⟩

/-- An event with the same `dtstart` as `cexEvA` but different organiser,
summary and uid. -/
def cexEvC : SC.Event :=
  ⟨"Bdmo", ⟨2025, 6, 4, 0, 0, 0⟩, ⟨2025, 6, 5, 0, 0, 0⟩, "other",
   ⟨2025, 6, 2, 0, 0, 0⟩, "uid-c"⟩

set_option maxRecDepth 4000 in
/-- C1 counterexample. In the `shifts_calendar.py` variant, `to_str` does
not sort: with `cexEvA` starting strictly before `cexEvB`, the calendar
holding `[cexEvB, cexEvA]` renders `cexEvB`'s block first (insertion
order), and the output differs from the one obtained with the events
appended in ascending order — so the rendered blocks are not listed in
non-decreasing `dtstart` order regardless of append order, refuting the
claim for `shifts_calendar.py`'s `Calendar.to_str`. -/
theorem sc_render_not_sorted_cex :
    DateTime.lt cexEvA.dtstart cexEvB.dtstart = true ∧
    SC.Calendar.to_str ⟨"p", "2.0", [cexEvB, cexEvA]⟩ =
      "BEGIN:VCALENDAR" ++ "\n" ++ "VERSION:2.0" ++ "\n" ++ "PRODID:p" ++ "\n" ++
        SC.Event.to_str cexEvB ++ "\n" ++ SC.Event.to_str cexEvA ++ "\n" ++
        "END:VCALENDAR" ∧
    SC.Calendar.to_str ⟨"p", "2.0", [cexEvB, cexEvA]⟩ ≠
      SC.Calendar.to_str ⟨"p", "2.0", [cexEvA, cexEvB]⟩ := by
  refine ⟨by decide, by decide, by decide⟩

/-- C1 (amended). In `shift_calendar_generator.py`, `Calendar.to_str`
lists the rendered blocks of its events in non-decreasing `dtstart`
order, events with equal `dtstart` keeping their original append order
(the sort is stable and is a full re-sort applied at render time,
whatever the append order); in the `shifts_calendar.py` variant,
`Calendar.to_str` lists the blocks in original append order with no
sort. -/
theorem calendar_render_order :
    (∀ c : SCG.Calendar,
      c.to_str = String.intercalate "\n"
        (["BEGIN:VCALENDAR", "VERSION:" ++ c.version, "PRODID:" ++ c.prodid]
          ++ (pySorted c.events).map SCG.Event.to_str ++ ["END:VCALENDAR"]) ∧
      (pySorted c.events).Pairwise (fun a b => SCG.Event.lt b a = false) ∧
      (pySorted c.events).Perm c.events ∧
      (∀ t : DateTime,
        (pySorted c.events).filter (fun e => decide (e.dtstart = t)) =
          c.events.filter (fun e => decide (e.dtstart = t)))) ∧
    (∀ c : SC.Calendar,
      c.to_str = String.intercalate "\n"
        (["BEGIN:VCALENDAR", "VERSION:" ++ c.version, "PRODID:" ++ c.prodid]
          ++ c.events.map SC.Event.to_str ++ ["END:VCALENDAR"])) := by
  refine ⟨fun c => ⟨rfl, ?_, pySorted_perm c.events, fun t => pySorted_stable c.events t⟩,
    fun c => rfl⟩
  have h := pySorted_sorted c.events
  exact h

/-- C2 counterexample. In `src/shifts_calendar.py` the `Event` dataclass
overrides no `__eq__`, so the generated equality compares all fields:
`cexEvA` and `cexEvC` share `dtstart` yet compare unequal, refuting the
claim for that variant. -/
theorem sc_event_eq_all_fields_cex :
    cexEvA.dtstart = cexEvC.dtstart ∧ SC.Event.eq cexEvA cexEvC = false := by
  refine ⟨by decide, by decide⟩

/-- C2 (amended). In `shift_calendar_generator.py`, two Events compare
equal iff their `dtstart` values are equal — summary, organiser, dtend,
dtstamp and uid play no part. In the `shifts_calendar.py` variant the
dataclass-generated equality compares all six fields, so events with
equal `dtstart` but differing other fields compare unequal. -/
theorem event_equality_rule :
    (∀ a b : SCG.Event, SCG.Event.eq a b = true ↔ a.dtstart = b.dtstart) ∧
    (∀ (d0 d1 d2 : DateTime) (o1 o2 s1 s2 u1 u2 : String),
      SCG.Event.eq ⟨o1, d0, d1, s1, d2, u1⟩ ⟨o2, d0, d1, s2, d2, u2⟩ = true) ∧
    (∀ a b : SC.Event, SC.Event.eq a b = true ↔
      (a.organiser = b.organiser ∧ a.dtstart = b.dtstart ∧ a.dtend = b.dtend ∧
        a.summary = b.summary ∧ a.dtstamp = b.dtstamp ∧ a.uid = b.uid)) := by
  refine ⟨fun a b => ?_, fun d0 d1 d2 o1 o2 s1 s2 u1 u2 => ?_, fun a b => ?_⟩
  · simp [SCG.Event.eq]
  · simp [SCG.Event.eq]
  · simp [SC.Event.eq]

theorem pyListRemove_not_mem (l : List SCG.Event) (e : SCG.Event)
    (h : ∀ x ∈ l, SCG.Event.eq x e = false) :
    pyListRemove l e = Except.error "ValueError: list.remove(x): x not in list" := by
  induction l with
  | nil => rfl
  | cons y ys ih =>
    have hy : SCG.Event.eq y e = false := h y (List.mem_cons_self y ys)
    simp only [pyListRemove, hy, Bool.false_eq_true, if_false]
    rw [ih (fun x hx => h x (List.mem_cons_of_mem y hx))]
    rfl

theorem pyListRemove_first (e x : SCG.Event) (l1 l2 : List SCG.Event)
    (h1 : ∀ y ∈ l1, SCG.Event.eq y e = false) (hx : SCG.Event.eq x e = true) :
    pyListRemove (l1 ++ x :: l2) e = Except.ok (l1 ++ l2) := by
  induction l1 with
  | nil => simp [pyListRemove, hx]
  | cons y ys ih =>
    have hy : SCG.Event.eq y e = false := h1 y (List.mem_cons_self y ys)
    simp only [List.cons_append, pyListRemove, hy, Bool.false_eq_true, if_false,
      List.append_eq]
    rw [ih (fun z hz => h1 z (List.mem_cons_of_mem y hz))]
    rfl

/-- C5 counterexample. When no event in the collection equals the given
one, the closure from `get_delete_func` calls `list.remove`, which raises
`ValueError` — it is not a no-op: on the empty collection the result is
an error, not the unchanged calendar. -/
theorem remove_matching_empty_raises_cex :
    SCG.removeMatching ⟨"p", "2.0", []⟩
        ⟨"Admo", ⟨2025, 6, 4, 0, 0, 0⟩, ⟨2025, 6, 5, 0, 0, 0⟩, "stuff",
         ⟨2025, 6, 1, 0, 0, 0⟩, "uid-a"⟩ =
      Except.error "ValueError: list.remove(x): x not in list" ∧
    SCG.removeMatching ⟨"p", "2.0", []⟩
        ⟨"Admo", ⟨2025, 6, 4, 0, 0, 0⟩, ⟨2025, 6, 5, 0, 0, 0⟩, "stuff",
         ⟨2025, 6, 1, 0, 0, 0⟩, "uid-a"⟩ ≠
      Except.ok ⟨"p", "2.0", []⟩ := by
  exact ⟨rfl, fun hcon => Except.noConfusion hcon⟩

/-- C5 (amended). `removeMatching` (the `get_delete_func` closure) removes
exactly the first event equal to its argument under the dtstart-only
equality; when no event matches, `list.remove` raises `ValueError`
instead of being a no-op. -/
theorem remove_matching_first_or_raises :
    ∀ (c : SCG.Calendar) (e : SCG.Event),
      ((∀ x ∈ c.events, SCG.Event.eq x e = false) →
        SCG.removeMatching c e =
          Except.error "ValueError: list.remove(x): x not in list") ∧
      (∀ (l1 l2 : List SCG.Event) (x : SCG.Event),
        c.events = l1 ++ x :: l2 → (∀ y ∈ l1, SCG.Event.eq y e = false) →
        SCG.Event.eq x e = true →
        SCG.removeMatching c e = Except.ok ⟨c.prodid, c.version, l1 ++ l2⟩) := by
  intro c e
  constructor
  · intro h
    unfold SCG.removeMatching
    rw [pyListRemove_not_mem c.events e h]
    rfl
  · intro l1 l2 x hsplit h1 hx
    unfold SCG.removeMatching
    rw [hsplit, pyListRemove_first e x l1 l2 h1 hx]
    rfl

/-- An `shift_calendar_generator.py` event used by witnesses. -/
def wEvA : SCG.Event :=
  ⟨"Admo", ⟨2025, 6, 4, 0, 0, 0⟩, ⟨2025, 6, 5, 0, 0, 0⟩, "stuff",
   ⟨2025, 6, 1, 0, 0, 0⟩, "uid-a"⟩

/-- An event with the same `dtstart` as `wEvA` but different organiser,
summary and uid. -/
def wEvC : SCG.Event :=
  ⟨"Bdmo", ⟨2025, 6, 4, 0, 0, 0⟩, ⟨2025, 6, 5, 0, 0, 0⟩, "other",
   ⟨2025, 6, 2, 0, 0, 0⟩, "uid-c"⟩

/-- Witness for C5: removing an event that matches both stored events (by
`dtstart`) removes exactly the first one. -/
theorem remove_matching_first_or_raises_witness :
    SCG.removeMatching ⟨"p", "2.0", [wEvA, wEvC]⟩ wEvC =
      Except.ok ⟨"p", "2.0", [wEvC]⟩ :=
  (remove_matching_first_or_raises ⟨"p", "2.0", [wEvA, wEvC]⟩ wEvC).2
    [] [wEvC] wEvA rfl (fun y hy => absurd hy (List.not_mem_nil y)) (by decide)

/-- C6. `delete_last_event` removes the last (most recently appended)
event when the collection is non-empty, and is a no-op — no error, no
state change — on an empty collection. -/
theorem delete_last_event_spec :
    ∀ c : SCG.Calendar,
      (c.events = [] → SCG.delete_last_event c = c) ∧
      (∀ (l : List SCG.Event) (x : SCG.Event), c.events = l ++ [x] →
        SCG.delete_last_event c = ⟨c.prodid, c.version, l⟩) := by
  intro c
  constructor
  · intro h
    unfold SCG.delete_last_event
    rw [if_neg (by simp [h])]
  · intro l x h
    unfold SCG.delete_last_event
    rw [if_pos (by simp [h])]
    simp [h]

/-- Witness for C6: deleting from a one-event calendar removes that event;
deleting from an empty calendar changes nothing. -/
theorem delete_last_event_spec_witness :
    SCG.delete_last_event ⟨"p", "2.0", [wEvA]⟩ = ⟨"p", "2.0", []⟩ ∧
    SCG.delete_last_event ⟨"p", "2.0", []⟩ = ⟨"p", "2.0", []⟩ :=
  ⟨(delete_last_event_spec ⟨"p", "2.0", [wEvA]⟩).2 [] wEvA rfl,
   (delete_last_event_spec ⟨"p", "2.0", []⟩).1 rfl⟩

/-- C4. Both variants' `to_file` write exactly one file, at
`filename.with_suffix('.ics')`: the final extension of the written path
is exactly `.ics`; a path with no extension gets `.ics` appended; a path
with an extension has that extension replaced (not appended after); and
no write happens at the originally supplied path when it differs from
the normalized one. -/
theorem to_file_extension_normalization :
    (∀ (c : SCG.Calendar) (p : String) (writes : List (String × String)),
      SCG.Calendar.to_file c p = Except.ok writes →
      ∃ t : String, writes = [(t, c.to_str)] ∧ pathSuffix t = ".ics" ∧
        (pathSuffix p = "" → t = p ++ ".ics") ∧
        (pathSuffix p ≠ "" → t = pathDir p ++
          (String.mk ((pathName p).data.take
            ((pathName p).length - (pathSuffix p).length)) ++ ".ics")) ∧
        (∀ content : String, (p, content) ∈ writes → p = t)) ∧
    (∀ (c : SC.Calendar) (p : String) (writes : List (String × String)),
      SC.Calendar.to_file c p = Except.ok writes →
      ∃ t : String, writes = [(t, c.to_str)] ∧ pathSuffix t = ".ics" ∧
        (pathSuffix p = "" → t = p ++ ".ics") ∧
        (pathSuffix p ≠ "" → t = pathDir p ++
          (String.mk ((pathName p).data.take
            ((pathName p).length - (pathSuffix p).length)) ++ ".ics")) ∧
        (∀ content : String, (p, content) ∈ writes → p = t)) := by
  constructor
  · intro c p writes h
    unfold SCG.Calendar.to_file at h
    cases hw : with_suffix p ".ics" with
    | error msg =>
      rw [hw] at h
      exact absurd h (by simp [Except.map])
    | ok t =>
      rw [hw] at h
      simp only [Except.map, Except.ok.injEq] at h
      subst h
      obtain ⟨hs, he, hr⟩ := with_suffix_ics_ok p t hw
      refine ⟨t, rfl, hs, he, hr, ?_⟩
      intro content hmem
      simp only [List.mem_singleton, Prod.mk.injEq] at hmem
      exact hmem.1
  · intro c p writes h
    unfold SC.Calendar.to_file at h
    cases hw : with_suffix p ".ics" with
    | error msg =>
      rw [hw] at h
      exact absurd h (by simp [Except.map])
    | ok t =>
      rw [hw] at h
      simp only [Except.map, Except.ok.injEq] at h
      subst h
      obtain ⟨hs, he, hr⟩ := with_suffix_ics_ok p t hw
      refine ⟨t, rfl, hs, he, hr, ?_⟩
      intro content hmem
      simp only [List.mem_singleton, Prod.mk.injEq] at hmem
      exact hmem.1

/-- Witness for C4 at the spec's own example `outputs/test.txt`: the
`.txt` extension is replaced by `.ics`, content is the rendered calendar,
and no write targets `outputs/test.txt`. -/
theorem to_file_extension_normalization_witness :
    SCG.Calendar.to_file ⟨"prog", "2.0", []⟩ "outputs/test.txt" =
      Except.ok [("outputs/test.ics", SCG.Calendar.to_str ⟨"prog", "2.0", []⟩)] ∧
    (∃ t : String,
      [("outputs/test.ics", SCG.Calendar.to_str ⟨"prog", "2.0", []⟩)] =
        [(t, SCG.Calendar.to_str ⟨"prog", "2.0", []⟩)] ∧
      pathSuffix t = ".ics" ∧
      (pathSuffix "outputs/test.txt" = "" → t = "outputs/test.txt" ++ ".ics") ∧
      (pathSuffix "outputs/test.txt" ≠ "" → t = pathDir "outputs/test.txt" ++
        (String.mk ((pathName "outputs/test.txt").data.take
          ((pathName "outputs/test.txt").length -
            (pathSuffix "outputs/test.txt").length)) ++ ".ics")) ∧
      (∀ content : String,
        ("outputs/test.txt", content) ∈
          [("outputs/test.ics", SCG.Calendar.to_str ⟨"prog", "2.0", []⟩)] →
        "outputs/test.txt" = t)) :=
  ⟨rfl, to_file_extension_normalization.1 ⟨"prog", "2.0", []⟩ "outputs/test.txt"
    [("outputs/test.ics", SCG.Calendar.to_str ⟨"prog", "2.0", []⟩)] rfl⟩

/-- C10. Constructing a Calendar without an events argument allocates a
fresh, per-instance empty list: two such constructions get distinct list
objects, each readable as an actual (non-absent) empty list, and
appending through either calendar's reference leaves the other
calendar's list untouched. -/
theorem post_init_fresh_events :
    ∀ (h0 : EventHeap) (p1 v1 p2 v2 : String) (e : SCG.Event),
      (SCG.Calendar.post_init p1 v1 none h0).1.eventsRef ≠
        (SCG.Calendar.post_init p2 v2 none
          (SCG.Calendar.post_init p1 v1 none h0).2).1.eventsRef ∧
      ((SCG.Calendar.post_init p2 v2 none
          (SCG.Calendar.post_init p1 v1 none h0).2).2).read
        (SCG.Calendar.post_init p1 v1 none h0).1.eventsRef = some [] ∧
      ((SCG.Calendar.post_init p2 v2 none
          (SCG.Calendar.post_init p1 v1 none h0).2).2).read
        (SCG.Calendar.post_init p2 v2 none
          (SCG.Calendar.post_init p1 v1 none h0).2).1.eventsRef = some [] ∧
      (((SCG.Calendar.post_init p2 v2 none
          (SCG.Calendar.post_init p1 v1 none h0).2).2).appendAt
        (SCG.Calendar.post_init p2 v2 none
          (SCG.Calendar.post_init p1 v1 none h0).2).1.eventsRef e).read
        (SCG.Calendar.post_init p1 v1 none h0).1.eventsRef = some [] := by
  intro h0 p1 v1 p2 v2 e
  simp only [SCG.Calendar.post_init, EventHeap.alloc, EventHeap.read,
    EventHeap.appendAt, List.get?_eq_getElem?, List.append_eq]
  refine ⟨by simp only [List.length_append, List.length_cons, List.length_nil]; omega,
    ?_, ?_, ?_⟩
  · rw [List.getElem?_append_left (by simp)]
    exact List.getElem?_concat_length h0 []
  · exact List.getElem?_concat_length (h0 ++ [[]]) []
  · rw [List.getElem?_set_ne
      (by simp only [List.length_append, List.length_cons, List.length_nil]; omega)]
    rw [List.getElem?_append_left (by simp)]
    exact List.getElem?_concat_length h0 []
